import Mathlib

/-!
Verification of the TestBuddy Document Intelligence Engine
(`src/document_intelligence.py`) against its natural-language specification.

The Python module is shallowly embedded below:
* pure data classes become Lean structures;
* pixel coordinates are `Int` (Python ints), confidences and scores are `ℚ`
  (Python floats; every arithmetic operation performed by the module —
  division of small integers, comparison against `0.2` — is exact on the
  rationals involved, so `ℚ` is a faithful model for the values that occur);
* the external regular-expression engine (`re.search`), the OCR engine
  (`pytesseract.image_to_data`), image loading (`PIL.Image.open`,
  `cv2.imread`) and the Hough segment detector (`cv2.HoughLinesP`) are
  external collaborators and enter as explicit oracle parameters /
  environment fields, with failure modelled by `Except`/`Option`;
* Python `dict`s (which preserve insertion order) become association lists.
-/

namespace TestBuddy

/-- `DocumentType` enum of `document_intelligence.py` (declaration order of
members matches the source: INVOICE, RECEIPT, CONTRACT, FORM, LETTER,
REPORT, UNKNOWN). -/
inductive DocumentType where
  | INVOICE
  | RECEIPT
  | CONTRACT
  | FORM
  | LETTER
  | REPORT
  | UNKNOWN
deriving DecidableEq, Repr

/-- `Word` dataclass: a single recognized word.  `bbox` is
`(x, y, width, height)` in pixel units. -/
structure Word where
  text : String
  confidence : ℚ
  bbox : Int × Int × Int × Int
  position : String := "unknown"
deriving DecidableEq, Repr

/-- `TextLine` dataclass: a grouped line of words. -/
structure TextLine where
  text : String
  words : List Word := []
  confidence : ℚ := 0
  bbox : Int × Int × Int × Int := (0, 0, 0, 0)
deriving DecidableEq, Repr

/-- `Table` dataclass: a detected table grid. -/
structure Table where
  rows : Nat
  cols : Nat
  cells : List (List String)
  bbox : Int × Int × Int × Int
  confidence : ℚ
deriving DecidableEq, Repr

/-- `DocumentLayout` dataclass. -/
structure DocumentLayout where
  header : List TextLine := []
  body : List TextLine := []
  footer : List TextLine := []
  tables : List Table := []
  page_width : Int := 0
  page_height : Int := 0
deriving DecidableEq, Repr

/-- `ExtractedField` dataclass. -/
structure ExtractedField where
  name : String
  value : String
  confidence : ℚ
  source : String := "unknown"
deriving DecidableEq, Repr

/-- The `TextLine` value built inside `_finalize_text_line`:
`confidence` is the mean word confidence, `0.0` for an empty word list. -/
def mkTextLine (text : String) (words : List Word) (bbox : Int × Int × Int × Int) : TextLine :=
  { text := text
    words := words
    confidence := if words = [] then 0 else (words.map Word.confidence).sum / words.length
    bbox := bbox }

/-- `DocumentIntelligenceEngine._finalize_text_line`: appends the completed
line to `header` if its bbox top is `< page_height / 3`, to `footer` if it
is `> page_height * 2 / 3`, otherwise to `body`.  The divisions are exact
rational divisions; for page heights below `2^52` the Python float
divisions compare identically against integer tops. -/
def finalizeTextLine (layout : DocumentLayout) (text : String) (words : List Word)
    (bbox : Int × Int × Int × Int) : DocumentLayout :=
  let top_third : ℚ := (layout.page_height : ℚ) / 3
  let bottom_third : ℚ := (layout.page_height : ℚ) * 2 / 3
  let line := mkTextLine text words bbox
  if (bbox.2.1 : ℚ) < top_third then
    { layout with header := layout.header ++ [line] }
  else if (bbox.2.1 : ℚ) > bottom_third then
    { layout with footer := layout.footer ++ [line] }
  else
    { layout with body := layout.body ++ [line] }

/-- C4: with page height `H > 0` and line top `y`, the finalized line goes to
the header iff `y < H/3`, to the footer iff `y > 2H/3`, to the body iff
neither, and exactly one line is added overall. -/
theorem finalize_partitions_regions (layout : DocumentLayout) (text : String)
    (words : List Word) (bbox : Int × Int × Int × Int)
    (hH : 0 < layout.page_height) :
    ((finalizeTextLine layout text words bbox).header.length = layout.header.length + 1
        ↔ (bbox.2.1 : ℚ) < (layout.page_height : ℚ) / 3)
    ∧ ((finalizeTextLine layout text words bbox).footer.length = layout.footer.length + 1
        ↔ (bbox.2.1 : ℚ) > (layout.page_height : ℚ) * 2 / 3)
    ∧ ((finalizeTextLine layout text words bbox).body.length = layout.body.length + 1
        ↔ (¬ (bbox.2.1 : ℚ) < (layout.page_height : ℚ) / 3
            ∧ ¬ (bbox.2.1 : ℚ) > (layout.page_height : ℚ) * 2 / 3))
    ∧ (finalizeTextLine layout text words bbox).header.length
        + (finalizeTextLine layout text words bbox).body.length
        + (finalizeTextLine layout text words bbox).footer.length
      = layout.header.length + layout.body.length + layout.footer.length + 1 := by
  have hHQ : (0 : ℚ) < (layout.page_height : ℚ) := by exact_mod_cast hH
  by_cases h1 : (bbox.2.1 : ℚ) < (layout.page_height : ℚ) / 3
  · have h2 : ¬ (bbox.2.1 : ℚ) > (layout.page_height : ℚ) * 2 / 3 := by
      push_neg
      linarith
    simp [finalizeTextLine, h1, h2]
    omega
  · by_cases h2 : (bbox.2.1 : ℚ) > (layout.page_height : ℚ) * 2 / 3
    · simp [finalizeTextLine, h1, h2]
      omega
    · simp [finalizeTextLine, h1, h2]
      omega

/-- Witness for C4 at a concrete input: page height 30, line top 2 lands in
the header. -/
theorem finalize_partitions_regions_witness :
    (0 : Int) < (30 : Int)
    ∧ ((finalizeTextLine { page_height := 30 } "w" [] (0, 2, 5, 5)).header.length
          = ([] : List TextLine).length + 1
        ↔ ((2 : Int) : ℚ) < ((30 : Int) : ℚ) / 3) := by
  refine ⟨by norm_num, ?_⟩
  exact (finalize_partitions_regions { page_height := 30 } "w" [] (0, 2, 5, 5)
    (by norm_num)).1

/-- C1 counterexample: with page height 0, a finalized line whose bbox top
is 5 is appended to the FOOTER (since `5 > 0 = 2·0/3`), not to the body,
so the footer does not stay empty. -/
theorem height_zero_line_goes_to_footer :
    (finalizeTextLine { page_height := 0 } "hello" [] (0, 5, 10, 10)).footer.length = 1
    ∧ (finalizeTextLine { page_height := 0 } "hello" [] (0, 5, 10, 10)).body = [] := by
  constructor
  · simp [finalizeTextLine]
    norm_num
  · simp [finalizeTextLine]
    norm_num

/-- C1 amended: with page height 0, a finalized line with bbox top `y ≥ 0`
goes to the body iff `y = 0` and to the footer iff `y > 0`; the header never
receives it. -/
theorem height_zero_body_or_footer (layout : DocumentLayout) (text : String)
    (words : List Word) (bbox : Int × Int × Int × Int)
    (hH : layout.page_height = 0) (hy : 0 ≤ bbox.2.1) :
    ((finalizeTextLine layout text words bbox).body = layout.body ++ [mkTextLine text words bbox]
        ↔ bbox.2.1 = 0)
    ∧ ((finalizeTextLine layout text words bbox).footer = layout.footer ++ [mkTextLine text words bbox]
        ↔ 0 < bbox.2.1)
    ∧ (finalizeTextLine layout text words bbox).header = layout.header := by
  have hnotlt : ¬ (bbox.2.1 : ℚ) < (layout.page_height : ℚ) / 3 := by
    rw [hH]
    push_neg
    norm_num
    exact_mod_cast hy
  rcases lt_or_eq_of_le hy with hpos | hzero
  · have hgt : (bbox.2.1 : ℚ) > (layout.page_height : ℚ) * 2 / 3 := by
      rw [hH]
      norm_num
      exact_mod_cast hpos
    simp [finalizeTextLine, hnotlt, hgt]
    omega
  · have hngt : ¬ (bbox.2.1 : ℚ) > (layout.page_height : ℚ) * 2 / 3 := by
      rw [hH, ← hzero]
      norm_num
    simp [finalizeTextLine, hnotlt, hngt]
    omega

/-- Witness for the amended C1 at a concrete input: page height 0, top 5
lands in the footer. -/
theorem height_zero_body_or_footer_witness :
    ({ page_height := 0 } : DocumentLayout).page_height = 0
    ∧ (0 : Int) ≤ 5
    ∧ ((finalizeTextLine { page_height := 0 } "w" [] (1, 5, 2, 2)).footer
          = ([] : List TextLine) ++ [mkTextLine "w" [] (1, 5, 2, 2)]
        ↔ (0 : Int) < 5) := by
  refine ⟨rfl, by norm_num, ?_⟩
  exact (height_zero_body_or_footer { page_height := 0 } "w" [] (1, 5, 2, 2)
    rfl (by norm_num)).2.1

/-! ### Document type classification (`doc_type_patterns`, `_classify_document_type`) -/

/-- The `doc_type_patterns` catalog built in `DocumentIntelligenceEngine.__init__`,
in dict insertion order, with the exact regex source strings of the Python
module.  Note the CONTRACT list has six entries and the LETTER list four. -/
def docTypePatterns : List (DocumentType × List String) :=
  [ (DocumentType.INVOICE,
      [ "invoice\\s*(?:number|no\\.?|#)?"
      , "amount\\s*due"
      , "invoice\\s*date"
      , "bill\\s*to"
      , "from|seller" ])
  , (DocumentType.RECEIPT,
      [ "receipt\\s*(?:number|no\\.?|#)?"
      , "total|amount.*paid"
      , "transaction\\s*(?:id|number)"
      , "item.*(?:qty|quantity|price)"
      , "thank.*you" ])
  , (DocumentType.CONTRACT,
      [ "agreement|contract"
      , "party|parties"
      , "whereas"
      , "hereinafter"
      , "signature|signed"
      , "effective\\s*date" ])
  , (DocumentType.FORM,
      [ "form\\s*(?:number|no\\.?|#)?"
      , "please.*(?:complete|fill)"
      , "required.*field|field.*required"
      , "\\[.*\\]|__+"
      , "signature\\s*(?:line|here)" ])
  , (DocumentType.LETTER,
      [ "(?:dear|to)\\s+"
      , "sincerely|regards|respectfully"
      , "(?:mr\\.|ms\\.|dr\\.)"
      , "address:|date:" ])
  , (DocumentType.REPORT,
      [ "report\\s*(?:number|no\\.?|#)?"
      , "annual|quarterly|monthly|executive\\s*summary"
      , "table\\s*of\\s*contents"
      , "findings|conclusions"
      , "prepared\\s*by|date" ]) ]

/-- The pattern list the catalog assigns to a type (empty for UNKNOWN, which
owns no entry). -/
def patternsFor (t : DocumentType) : List String :=
  (docTypePatterns.lookup t).getD []

/-- An oracle for `re.search(pattern, text, re.IGNORECASE)` viewed as a
match/no-match test: `m pattern text = true` iff the external regex engine
finds a match of `pattern` anywhere in `text`. -/
abbrev MatchOracle := String → String → Bool

/-- Per-type score of `_classify_document_type`: the number of the type's
patterns that match the lowercased text, divided by the type's pattern
count. -/
def score (m : MatchOracle) (text : String) (t : DocumentType) : ℚ :=
  (((patternsFor t).filter (fun p => m p text.toLower)).length : ℚ)
    / ((patternsFor t).length : ℚ)

/-- Semantics of CPython's `max(iterable, key=...)` starting from a first
element `b`: scan left to right, replacing the current best only on a
strictly greater key, so the FIRST maximal element wins. -/
def pyMaxBy (f : DocumentType → ℚ) : DocumentType → List DocumentType → DocumentType
  | b, [] => b
  | b, x :: xs => pyMaxBy f (if f b < f x then x else b) xs

/-- `pyMaxBy` returns the first element attaining the maximum: the input
list splits around the result so that everything before it scores strictly
less and everything after it scores at most the result. -/
theorem pyMaxBy_spec (f : DocumentType → ℚ) (l : List DocumentType) (b : DocumentType) :
    ∃ l1 l2, b :: l = l1 ++ pyMaxBy f b l :: l2
      ∧ (∀ z ∈ l1, f z < f (pyMaxBy f b l))
      ∧ (∀ z ∈ l2, f z ≤ f (pyMaxBy f b l)) := by
  induction l generalizing b with
  | nil =>
    exact ⟨[], [], rfl, by simp, by simp⟩
  | cons x xs ih =>
    by_cases hbx : f b < f x
    · obtain ⟨l1, l2, heq, hlt, hle⟩ := ih x
      have hres : pyMaxBy f b (x :: xs) = pyMaxBy f x xs := by
        simp [pyMaxBy, hbx]
      have hxle : f x ≤ f (pyMaxBy f x xs) := by
        rcases l1 with _ | ⟨z, zs⟩
        · simp only [List.nil_append, List.cons.injEq] at heq
          exact le_of_eq (congrArg f heq.1)
        · simp only [List.cons_append, List.cons.injEq] at heq
          have hfx : f x = f z := congrArg f heq.1
          rw [hfx]
          exact le_of_lt (hlt z (by simp))
      refine ⟨b :: l1, l2, ?_, ?_, ?_⟩
      · rw [hres]
        simpa using heq
      · intro z hz
        rw [hres]
        rcases List.mem_cons.mp hz with hz | hz
        · rw [hz]
          exact lt_of_lt_of_le hbx hxle
        · exact hlt z hz
      · intro z hz
        rw [hres]
        exact hle z hz
    · obtain ⟨l1, l2, heq, hlt, hle⟩ := ih b
      have hres : pyMaxBy f b (x :: xs) = pyMaxBy f b xs := by
        simp [pyMaxBy, hbx]
      rcases l1 with _ | ⟨z, zs⟩
      · simp only [List.nil_append, List.cons.injEq] at heq
        obtain ⟨hb, hxs⟩ := heq
        refine ⟨[], x :: l2, ?_, by simp, ?_⟩
        · rw [hres, ← hb, hxs]
          rfl
        · intro z hz
          rw [hres]
          rcases List.mem_cons.mp hz with hz | hz
          · rw [hz, ← hb]
            exact not_lt.mp hbx
          · exact hle z hz
      · simp only [List.cons_append, List.cons.injEq] at heq
        obtain ⟨hb, htail⟩ := heq
        refine ⟨b :: x :: zs, l2, ?_, ?_, ?_⟩
        · rw [hres]
          conv_lhs => rw [htail]
          simp
        · intro w hw
          rw [hres]
          have hbres : f b < f (pyMaxBy f b xs) := by
            have := hlt z (by simp)
            rwa [← hb] at this
          rcases List.mem_cons.mp hw with hw | hw
          · rw [hw]
            exact hbres
          · rcases List.mem_cons.mp hw with hw | hw
            · rw [hw]
              exact lt_of_le_of_lt (not_lt.mp hbx) hbres
            · exact hlt w (by simp [hw])
        · intro w hw
          rw [hres]
          exact hle w hw

/-- `DocumentIntelligenceEngine._classify_document_type`: build the score
dict over the six catalog types (insertion order INVOICE, RECEIPT,
CONTRACT, FORM, LETTER, REPORT), take `max(scores, key=scores.get)` (first
maximal key), and return UNKNOWN with the same confidence when the winning
score is `< 0.2`.  The Python float literal `0.2` equals `float(1/5)` and
every score is a rational with denominator 4, 5 or 6, so the exact
comparison against `1/5` coincides with the float comparison. -/
def classifyDocumentType (m : MatchOracle) (text : String) : DocumentType × ℚ :=
  let best_type := pyMaxBy (score m text) DocumentType.INVOICE
      [DocumentType.RECEIPT, DocumentType.CONTRACT, DocumentType.FORM,
       DocumentType.LETTER, DocumentType.REPORT]
  let confidence := score m text best_type
  if confidence < 1/5 then (DocumentType.UNKNOWN, confidence)
  else (best_type, confidence)

/-- C3 counterexample: the CONTRACT pattern list has 6 entries and the
LETTER pattern list 4, refuting "exactly 5 patterns per non-unknown type". -/
theorem contract_letter_pattern_counts :
    (patternsFor DocumentType.CONTRACT).length = 6
    ∧ (patternsFor DocumentType.LETTER).length = 4 := by
  constructor <;> rfl

/-- C3 amended: the catalog has 5 patterns for INVOICE, RECEIPT, FORM and
REPORT, 6 for CONTRACT and 4 for LETTER, and for every type the score is
the matching-pattern count divided by the type's pattern count, a value in
`[0, 1]`. -/
theorem pattern_catalog_and_score_bounds (m : MatchOracle) (text : String)
    (t : DocumentType) :
    (patternsFor DocumentType.INVOICE).length = 5
    ∧ (patternsFor DocumentType.RECEIPT).length = 5
    ∧ (patternsFor DocumentType.CONTRACT).length = 6
    ∧ (patternsFor DocumentType.FORM).length = 5
    ∧ (patternsFor DocumentType.LETTER).length = 4
    ∧ (patternsFor DocumentType.REPORT).length = 5
    ∧ score m text t
        = (((patternsFor t).filter (fun p => m p text.toLower)).length : ℚ)
            / ((patternsFor t).length : ℚ)
    ∧ 0 ≤ score m text t ∧ score m text t ≤ 1 := by
  refine ⟨rfl, rfl, rfl, rfl, rfl, rfl, rfl, ?_, ?_⟩
  · unfold score
    positivity
  · unfold score
    rcases Nat.eq_zero_or_pos (patternsFor t).length with h0 | hpos
    · simp [h0]
    · rw [div_le_one (by exact_mod_cast hpos)]
      exact_mod_cast List.length_filter_le _ _

/-- Witness for C3's amended statement (the statement has no `Prop`
hypothesis, but we record a concrete evaluation anyway): with the
all-false oracle every score is defined and lies in `[0,1]`. -/
theorem pattern_catalog_and_score_bounds_witness :
    0 ≤ score (fun _ _ => false) "x" DocumentType.INVOICE
    ∧ score (fun _ _ => false) "x" DocumentType.INVOICE ≤ 1 :=
  (pattern_catalog_and_score_bounds (fun _ _ => false) "x" DocumentType.INVOICE).2.2.2.2.2.2.2

/-- C5: whenever the winning (maximal) score is below `0.2` the classifier
returns UNKNOWN with that score; in particular with no pattern match at all
it returns UNKNOWN with confidence 0. -/
theorem low_score_returns_unknown (m : MatchOracle) (text : String) :
    (∀ t, t ∈ [DocumentType.INVOICE, DocumentType.RECEIPT, DocumentType.CONTRACT,
        DocumentType.FORM, DocumentType.LETTER, DocumentType.REPORT] →
      score m text t
        ≤ score m text (pyMaxBy (score m text) DocumentType.INVOICE
            [DocumentType.RECEIPT, DocumentType.CONTRACT, DocumentType.FORM,
             DocumentType.LETTER, DocumentType.REPORT]))
    ∧ (score m text (pyMaxBy (score m text) DocumentType.INVOICE
          [DocumentType.RECEIPT, DocumentType.CONTRACT, DocumentType.FORM,
           DocumentType.LETTER, DocumentType.REPORT]) < 1/5 →
        classifyDocumentType m text
          = (DocumentType.UNKNOWN,
             score m text (pyMaxBy (score m text) DocumentType.INVOICE
               [DocumentType.RECEIPT, DocumentType.CONTRACT, DocumentType.FORM,
                DocumentType.LETTER, DocumentType.REPORT])))
    ∧ ((∀ t p, p ∈ patternsFor t → m p text.toLower = false) →
        classifyDocumentType m text = (DocumentType.UNKNOWN, 0)) := by
  refine ⟨?_, ?_, ?_⟩
  · intro t ht
    obtain ⟨l1, l2, heq, hlt, hle⟩ := pyMaxBy_spec (score m text) [DocumentType.RECEIPT,
      DocumentType.CONTRACT, DocumentType.FORM, DocumentType.LETTER, DocumentType.REPORT]
      DocumentType.INVOICE
    have hmem : t ∈ l1 ++ pyMaxBy (score m text) DocumentType.INVOICE
        [DocumentType.RECEIPT, DocumentType.CONTRACT, DocumentType.FORM,
         DocumentType.LETTER, DocumentType.REPORT] :: l2 := by
      rw [← heq]
      simpa using ht
    rcases List.mem_append.mp hmem with h | h
    · exact le_of_lt (hlt t h)
    · rcases List.mem_cons.mp h with h | h
      · rw [h]
      · exact hle t h
  · intro hlow
    simp only [classifyDocumentType]
    rw [if_pos hlow]
  · intro hnone
    have hz : ∀ t, score m text t = 0 := by
      intro t
      have : (patternsFor t).filter (fun p => m p text.toLower) = [] := by
        apply List.filter_eq_nil_iff.mpr
        intro p hp
        simp [hnone t p hp]
      simp [score, this]
    simp [classifyDocumentType, pyMaxBy, hz]

/-- Witness for C5 at a concrete input: with the all-false oracle the
classifier returns `(UNKNOWN, 0)`. -/
theorem low_score_returns_unknown_witness :
    classifyDocumentType (fun _ _ => false) "no patterns here" = (DocumentType.UNKNOWN, 0) :=
  (low_score_returns_unknown (fun _ _ => false) "no patterns here").2.2
    (fun _ _ _ => rfl)

/-- C9: classification is a function of the oracle and text alone
(deterministic by construction), and the selected type — whenever the
threshold check passes — is the FIRST type in catalog construction order
(INVOICE, RECEIPT, CONTRACT, FORM, LETTER, REPORT) attaining the maximal
score: the catalog order splits around the winner with strictly smaller
scores before it and no larger score after it. -/
theorem classify_tie_break_first (m : MatchOracle) (text : String)
    (hconf : 1/5 ≤ (classifyDocumentType m text).2) :
    ∃ l1 l2,
      [DocumentType.INVOICE, DocumentType.RECEIPT, DocumentType.CONTRACT,
       DocumentType.FORM, DocumentType.LETTER, DocumentType.REPORT]
        = l1 ++ (classifyDocumentType m text).1 :: l2
      ∧ (∀ z ∈ l1, score m text z < score m text (classifyDocumentType m text).1)
      ∧ (∀ z ∈ l2, score m text z ≤ score m text (classifyDocumentType m text).1) := by
  obtain ⟨l1, l2, heq, hlt, hle⟩ := pyMaxBy_spec (score m text) [DocumentType.RECEIPT,
    DocumentType.CONTRACT, DocumentType.FORM, DocumentType.LETTER, DocumentType.REPORT]
    DocumentType.INVOICE
  have hc2 : (classifyDocumentType m text).2
      = score m text (pyMaxBy (score m text) DocumentType.INVOICE
          [DocumentType.RECEIPT, DocumentType.CONTRACT, DocumentType.FORM,
           DocumentType.LETTER, DocumentType.REPORT]) := by
    simp only [classifyDocumentType]
    split <;> rfl
  have hnotlow : ¬ score m text (pyMaxBy (score m text) DocumentType.INVOICE
      [DocumentType.RECEIPT, DocumentType.CONTRACT, DocumentType.FORM,
       DocumentType.LETTER, DocumentType.REPORT]) < 1/5 := by
    rw [hc2] at hconf
    exact not_lt.mpr hconf
  have hc1 : (classifyDocumentType m text).1
      = pyMaxBy (score m text) DocumentType.INVOICE
          [DocumentType.RECEIPT, DocumentType.CONTRACT, DocumentType.FORM,
           DocumentType.LETTER, DocumentType.REPORT] := by
    simp only [classifyDocumentType]
    rw [if_neg hnotlow]
  refine ⟨l1, l2, ?_, ?_, ?_⟩
  · rw [hc1]
    exact heq
  · intro z hz
    rw [hc1]
    exact hlt z hz
  · intro z hz
    rw [hc1]
    exact hle z hz

/-- Witness for C9 at a concrete input: with the all-true oracle every type
scores 1, the six types tie, and INVOICE — the earliest in catalog order —
is selected. -/
theorem classify_tie_break_first_witness :
    classifyDocumentType (fun _ _ => true) "tie" = (DocumentType.INVOICE, 1)
    ∧ ∃ l1 l2,
      [DocumentType.INVOICE, DocumentType.RECEIPT, DocumentType.CONTRACT,
       DocumentType.FORM, DocumentType.LETTER, DocumentType.REPORT]
        = l1 ++ (classifyDocumentType (fun _ _ => true) "tie").1 :: l2
      ∧ (∀ z ∈ l1, score (fun _ _ => true) "tie" z
          < score (fun _ _ => true) "tie" (classifyDocumentType (fun _ _ => true) "tie").1)
      ∧ (∀ z ∈ l2, score (fun _ _ => true) "tie" z
          ≤ score (fun _ _ => true) "tie" (classifyDocumentType (fun _ _ => true) "tie").1) := by
  have hs : ∀ t, t ≠ DocumentType.UNKNOWN → score (fun _ _ => true) "tie" t = 1 := by
    have h1 : patternsFor DocumentType.INVOICE
        = [ "invoice\\s*(?:number|no\\.?|#)?", "amount\\s*due", "invoice\\s*date",
            "bill\\s*to", "from|seller" ] := rfl
    have h2 : patternsFor DocumentType.RECEIPT
        = [ "receipt\\s*(?:number|no\\.?|#)?", "total|amount.*paid",
            "transaction\\s*(?:id|number)", "item.*(?:qty|quantity|price)", "thank.*you" ] := rfl
    have h3 : patternsFor DocumentType.CONTRACT
        = [ "agreement|contract", "party|parties", "whereas", "hereinafter",
            "signature|signed", "effective\\s*date" ] := rfl
    have h4 : patternsFor DocumentType.FORM
        = [ "form\\s*(?:number|no\\.?|#)?", "please.*(?:complete|fill)",
            "required.*field|field.*required", "\\[.*\\]|__+", "signature\\s*(?:line|here)" ] := rfl
    have h5 : patternsFor DocumentType.LETTER
        = [ "(?:dear|to)\\s+", "sincerely|regards|respectfully", "(?:mr\\.|ms\\.|dr\\.)",
            "address:|date:" ] := rfl
    have h6 : patternsFor DocumentType.REPORT
        = [ "report\\s*(?:number|no\\.?|#)?", "annual|quarterly|monthly|executive\\s*summary",
            "table\\s*of\\s*contents", "findings|conclusions", "prepared\\s*by|date" ] := rfl
    intro t ht
    cases t
    · rw [score, h1]; norm_num
    · rw [score, h2]; norm_num
    · rw [score, h3]; norm_num
    · rw [score, h4]; norm_num
    · rw [score, h5]; norm_num
    · rw [score, h6]; norm_num
    · exact absurd rfl ht
  have hclass : classifyDocumentType (fun _ _ => true) "tie" = (DocumentType.INVOICE, 1) := by
    simp only [classifyDocumentType, pyMaxBy,
      hs DocumentType.INVOICE (by simp), hs DocumentType.RECEIPT (by simp),
      hs DocumentType.CONTRACT (by simp), hs DocumentType.FORM (by simp),
      hs DocumentType.LETTER (by simp), hs DocumentType.REPORT (by simp),
      lt_irrefl, if_false]
    norm_num
  constructor
  · exact hclass
  · exact classify_tie_break_first (fun _ _ => true) "tie" (by rw [hclass]; norm_num)

/-! ### Table detection (`_detect_tables`) -/

/-- A straight line segment `(x1, y1, x2, y2)` as returned by
`cv2.HoughLinesP` (one entry `l[0]` per detected line). -/
structure Segment where
  x1 : Int
  y1 : Int
  x2 : Int
  y2 : Int
deriving DecidableEq, Repr

/-- The horizontal-segment list of `_detect_tables`:
segments with `abs(y1 - y2) < 5`. -/
def hSegs (segs : List Segment) : List Segment :=
  segs.filter (fun s => (s.y1 - s.y2).natAbs < 5)

/-- The vertical-segment list of `_detect_tables`:
segments with `abs(x1 - x2) < 5`. -/
def vSegs (segs : List Segment) : List Segment :=
  segs.filter (fun s => (s.x1 - s.x2).natAbs < 5)

/-- Core of `DocumentIntelligenceEngine._detect_tables`, given the segments
delivered by the external Hough transform and the grayscale image size
(`img.shape = (height, width)`, so the emitted bbox
`(0, 0, img.shape[1], img.shape[0])` is `(0, 0, width, height)`). -/
def detectTables (width height : Int) (segs : List Segment) : List Table :=
  let h_lines := hSegs segs
  let v_lines := vSegs segs
  if h_lines.length > 2 ∧ v_lines.length > 2 then
    [ { rows := h_lines.length - 1
        cols := v_lines.length - 1
        cells := List.replicate (h_lines.length - 1) (List.replicate (v_lines.length - 1) "")
        bbox := (0, 0, width, height)
        confidence := 7/10 } ]
  else []

/-- C6: exactly one table — with rows = horizontal count − 1, cols =
vertical count − 1, an all-empty grid of that shape, the full image extent
as bbox and confidence 0.7 — is emitted iff both segment counts exceed 2;
otherwise the table list is empty. -/
theorem detect_tables_characterization (width height : Int) (segs : List Segment) :
    (detectTables width height segs = []
        ↔ ¬((hSegs segs).length > 2 ∧ (vSegs segs).length > 2))
    ∧ ((hSegs segs).length > 2 → (vSegs segs).length > 2 →
        detectTables width height segs
          = [ { rows := (hSegs segs).length - 1
                cols := (vSegs segs).length - 1
                cells := List.replicate ((hSegs segs).length - 1)
                    (List.replicate ((vSegs segs).length - 1) "")
                bbox := (0, 0, width, height)
                confidence := 7/10 } ]) := by
  constructor
  · by_cases hcond : (hSegs segs).length > 2 ∧ (vSegs segs).length > 2
    · simp only [detectTables, if_pos hcond]
      simp [hcond]
    · simp only [detectTables, if_neg hcond]
      simp [hcond]
  · intro hh hv
    simp only [detectTables, if_pos (And.intro hh hv)]

/-- Witness for C6 at a concrete input: three horizontal and three vertical
segments produce a single 2×2 table over a 200×300 image. -/
theorem detect_tables_characterization_witness :
    detectTables 200 300
      [ ⟨0, 0, 100, 0⟩, ⟨0, 50, 100, 50⟩, ⟨0, 99, 100, 99⟩,
        ⟨0, 0, 0, 100⟩, ⟨50, 0, 50, 100⟩, ⟨99, 0, 99, 100⟩ ]
      = [ { rows := 2, cols := 2, cells := [["", ""], ["", ""]],
            bbox := (0, 0, 200, 300), confidence := 7/10 } ] := by
  have h := (detect_tables_characterization 200 300
    [ ⟨0, 0, 100, 0⟩, ⟨0, 50, 100, 50⟩, ⟨0, 99, 100, 99⟩,
      ⟨0, 0, 0, 100⟩, ⟨50, 0, 50, 100⟩, ⟨99, 0, 99, 100⟩ ]).2
    (by decide) (by decide)
  rw [h]
  rfl

/-- C10: a segment whose endpoints differ by less than 5 both vertically
and horizontally passes both filters of `_detect_tables`, so it is counted
in the horizontal-segment list and in the vertical-segment list at once. -/
theorem short_segment_counted_twice (segs : List Segment) (s : Segment)
    (hmem : s ∈ segs)
    (hy : (s.y1 - s.y2).natAbs < 5) (hx : (s.x1 - s.x2).natAbs < 5) :
    s ∈ hSegs segs ∧ s ∈ vSegs segs := by
  constructor
  · exact List.mem_filter.mpr ⟨hmem, by simpa using hy⟩
  · exact List.mem_filter.mpr ⟨hmem, by simpa using hx⟩

/-- Witness for C10 at a concrete input: the degenerate segment
`(0,0)–(1,1)` is in both segment lists. -/
theorem short_segment_counted_twice_witness :
    (⟨0, 0, 1, 1⟩ : Segment) ∈ hSegs [⟨0, 0, 1, 1⟩, ⟨0, 0, 100, 0⟩]
    ∧ (⟨0, 0, 1, 1⟩ : Segment) ∈ vSegs [⟨0, 0, 1, 1⟩, ⟨0, 0, 100, 0⟩] :=
  short_segment_counted_twice [⟨0, 0, 1, 1⟩, ⟨0, 0, 100, 0⟩] ⟨0, 0, 1, 1⟩
    (by decide) (by decide) (by decide)

/-! ### Key field extraction (`field_patterns`, `_extract_key_fields`) -/

/-- The result of a successful `re.search`: the whole matched text and the
first capture group.  `group1 = none` models a pattern without capture
groups (`match.groups()` empty), in which case the Python code falls back
to `match.group(0)`.  Every pattern in the `field_patterns` catalog has
exactly one capture group in a required position, so for that catalog a
successful search always carries `group1 = some _`. -/
structure REMatch where
  whole : String
  group1 : Option String
deriving DecidableEq, Repr

/-- An oracle for `re.search(pattern, text, re.IGNORECASE)` returning the
match object (`none` on no match). -/
abbrev SearchOracle := String → String → Option REMatch

/-- The `field_patterns` catalog built in
`DocumentIntelligenceEngine.__init__`, in dict insertion order, with the
exact regex source strings of the Python module. -/
def fieldPatterns : List (String × String) :=
  [ ("invoice_number", "invoice\\s*(?:number|no\\.?|#)?\\s*[:=]?\\s*([A-Z0-9\\-]+)")
  , ("invoice_date", "invoice\\s*date\\s*[:=]?\\s*([\\d/\\-\\.]+)")
  , ("due_date", "(?:due|payment)\\s*date\\s*[:=]?\\s*([\\d/\\-\\.]+)")
  , ("total_amount", "(?:total|amount\\s*due)\\s*[:=]?\\s*[^\\d]*(\\d+(?:[.,]\\d+)*(?:[.,]\\d\x7b2\x7d)?)")
  , ("recipient", "(?:to|bill\\s*to|ship\\s*to)\\s*[:=]?\\s*([A-Za-z\\s]+)")
  , ("sender", "(?:from|company|seller)\\s*[:=]?\\s*([A-Za-z\\s]+)")
  , ("phone", "(?:phone|tel)(?:ephone)?\\s*[:=]?\\s*([\\d\\-\\(\\)]+)")
  , ("email", "([A-Za-z0-9._%+-]+@[A-Za-z0-9.-]+\\.[A-Z|a-z]\x7b2,\x7d)")
  , ("address", "(?:address|street)\\s*[:=]?\\s*([0-9\\s\\w\\.,#]+)")
  , ("zip_code", "(?:zip|postal)\\s*(?:code)?\\s*[:=]?\\s*(\\d\x7b5\x7d(?:[-]?\\d\x7b4\x7d)?)") ]

/-- The `ExtractedField` built on a successful match: value is the first
capture group if the pattern has one, else the whole match, stripped of
surrounding whitespace; confidence is the constant `0.85`; source `"regex"`. -/
def fieldOfMatch (name : String) (r : REMatch) : ExtractedField :=
  { name := name
    value := (r.group1.getD r.whole).trim
    confidence := 85/100
    source := "regex" }

/-- `DocumentIntelligenceEngine._extract_key_fields`: iterate the field
catalog in insertion order, search each pattern once against the lowercased
text, and insert an entry only on a match.  The Python dict (insertion
ordered, keys unique in the catalog) is modelled as an association list. -/
def extractKeyFields (search : SearchOracle) (text : String) :
    List (String × ExtractedField) :=
  fieldPatterns.foldl (fun fields fp =>
    match search fp.2 text.toLower with
    | some r => fields ++ [(fp.1, fieldOfMatch fp.1 r)]
    | none => fields) []

/-- The catalog fold is the `filterMap` of the per-entry match results. -/
theorem extractKeyFields_eq_filterMap (search : SearchOracle) (text : String) :
    extractKeyFields search text
      = fieldPatterns.filterMap (fun fp =>
          (search fp.2 text.toLower).map (fun r => (fp.1, fieldOfMatch fp.1 r))) := by
  have hgen : ∀ (l : List (String × String)) (acc : List (String × ExtractedField)),
      l.foldl (fun fields fp =>
        match search fp.2 text.toLower with
        | some r => fields ++ [(fp.1, fieldOfMatch fp.1 r)]
        | none => fields) acc
      = acc ++ l.filterMap (fun fp =>
          (search fp.2 text.toLower).map (fun r => (fp.1, fieldOfMatch fp.1 r))) := by
    intro l
    induction l with
    | nil => intro acc; simp
    | cons fp tl ih =>
      intro acc
      cases hsr : search fp.2 text.toLower with
      | none => simp [List.foldl_cons, List.filterMap_cons, hsr, ih]
      | some r => simp [List.foldl_cons, List.filterMap_cons, hsr, ih]
  simpa using hgen fieldPatterns []

/-- Looking up a key absent from the catalog in the filterMap result gives
nothing. -/
theorem lookup_filterMap_not_mem (search : SearchOracle) (text : String)
    (l : List (String × String)) (name : String)
    (hnot : name ∉ l.map Prod.fst) :
    (l.filterMap (fun fp =>
        (search fp.2 text.toLower).map (fun r => (fp.1, fieldOfMatch fp.1 r)))).lookup name
      = none := by
  induction l with
  | nil => rfl
  | cons fp tl ih =>
    have hne : fp.1 ≠ name := by
      intro h
      exact hnot (by simp [h])
    have htl : name ∉ tl.map Prod.fst := fun h => hnot (by simp [h])
    cases hsr : search fp.2 text.toLower with
    | none => simpa [List.filterMap_cons, hsr] using ih htl
    | some r =>
      have hbeq : (name == fp.1) = false := beq_eq_false_iff_ne.mpr (Ne.symm hne)
      simp only [List.filterMap_cons, hsr, Option.map_some]
      simpa [List.lookup, hbeq] using ih htl


/-- Looking up a catalog key in the filterMap result yields exactly the
mapped match result of that key's pattern, provided the catalog keys are
distinct. -/
theorem lookup_filterMap_mem (search : SearchOracle) (text : String)
    (l : List (String × String)) (name pattern : String)
    (hnd : (l.map Prod.fst).Nodup) (hmem : (name, pattern) ∈ l) :
    (l.filterMap (fun fp =>
        (search fp.2 text.toLower).map (fun r => (fp.1, fieldOfMatch fp.1 r)))).lookup name
      = (search pattern text.toLower).map (fieldOfMatch name) := by
  induction l with
  | nil => cases hmem
  | cons fp tl ih =>
    obtain ⟨hnotin, hndtl⟩ := List.nodup_cons.mp hnd
    rcases List.mem_cons.mp hmem with hhd | htl
    · have hf1 : fp.1 = name := by rw [← hhd]
      have hf2 : fp.2 = pattern := by rw [← hhd]
      have hnot : name ∉ tl.map Prod.fst := hf1 ▸ hnotin
      cases hsr : search fp.2 text.toLower with
      | none =>
        rw [hf2] at hsr
        simp only [List.filterMap_cons, hf2, hsr, Option.map_none]
        exact lookup_filterMap_not_mem search text tl name hnot
      | some r =>
        rw [hf2] at hsr
        simp only [List.filterMap_cons, hf2, hsr, Option.map_some]
        simp [List.lookup, hf1]
    · have hname : name ∈ tl.map Prod.fst :=
        List.mem_map.mpr ⟨(name, pattern), htl, rfl⟩
      have hne : (name == fp.1) = false :=
        beq_eq_false_iff_ne.mpr (fun h => hnotin (h ▸ hname))
      cases hsr : search fp.2 text.toLower with
      | none =>
        simp only [List.filterMap_cons, hsr, Option.map_none]
        exact ih hndtl htl
      | some r =>
        simp only [List.filterMap_cons, hsr, Option.map_some]
        simpa [List.lookup, hne] using ih hndtl htl

/-- C7: for every catalog field, the extraction result contains that field
iff its pattern matches the lowercased text: the lookup equals the mapped
match result, so on a match the entry is
`⟨name, trimmed group-1 (whole match if the pattern has no group), 0.85, "regex"⟩`
and on no match (`search` returns `none`) the field is absent entirely. -/
theorem extract_field_iff_match (search : SearchOracle) (text : String)
    (name pattern : String) (hmem : (name, pattern) ∈ fieldPatterns) :
    (extractKeyFields search text).lookup name
      = (search pattern text.toLower).map (fieldOfMatch name) := by
  rw [extractKeyFields_eq_filterMap]
  exact lookup_filterMap_mem search text fieldPatterns name pattern (by decide) hmem

/-- A concrete search oracle for the C7 witness: only the e-mail pattern
matches, capturing `support@example.com`. -/
def emailOnlySearch : SearchOracle := fun p _ =>
  if p = "([A-Za-z0-9._%+-]+@[A-Za-z0-9.-]+\\.[A-Z|a-z]\x7b2,\x7d)" then
    some { whole := "support@example.com", group1 := some "support@example.com" }
  else none

/-- Witness for C7 at a concrete input: the `email` field is extracted as
`fieldOfMatch` of the capture (trimmed value `support@example.com`,
confidence 0.85, source `regex`), while the unmatched `phone` field is
absent. -/
theorem extract_field_iff_match_witness :
    (extractKeyFields emailOnlySearch "Contact: support@example.com").lookup "email"
      = some (fieldOfMatch "email"
          { whole := "support@example.com", group1 := some "support@example.com" })
    ∧ (extractKeyFields emailOnlySearch "Contact: support@example.com").lookup "phone"
      = none := by
  constructor
  · have h := extract_field_iff_match emailOnlySearch "Contact: support@example.com"
      "email" "([A-Za-z0-9._%+-]+@[A-Za-z0-9.-]+\\.[A-Z|a-z]\x7b2,\x7d)" (by decide)
    rw [h]
    simp [emailOnlySearch]
  · have h := extract_field_iff_match emailOnlySearch "Contact: support@example.com"
      "phone" "(?:phone|tel)(?:ephone)?\\s*[:=]?\\s*([\\d\\-\\(\\)]+)" (by decide)
    rw [h]
    simp [emailOnlySearch]

/-! ### OCR line grouping (`_extract_layout` word loop) -/

/-- One entry of the `pytesseract.image_to_data` output consumed by the
word loop of `_extract_layout`: `text = data['text'][i]`,
`left/top/width/height` the box columns, `conf = data['conf'][i]` (the raw
0–100 confidence, divided by 100 inside the loop). -/
structure OCRWord where
  text : String
  left : Int
  top : Int
  width : Int
  height : Int
  conf : ℚ
deriving DecidableEq, Repr

/-- The loop accumulator of `_extract_layout`: reference top-coordinate
`current_line_y` (initially −1), `current_line_text`, `current_line_words`
and `current_line_bbox` (initially `(0, 0, 0, 0)`).  On starting a new line
the source resets text and words and re-seeds the reference top, but does
NOT reset the bbox accumulator. -/
structure LineAcc where
  y : Int := -1
  text : String := ""
  words : List Word := []
  bbox : Int × Int × Int × Int := (0, 0, 0, 0)
deriving DecidableEq, Repr

/-- One iteration of the word loop of `_extract_layout`: skip
whitespace-only words; finalize the current line when the new word's top
differs from the reference top by more than 10 and the line text is
non-empty; append the word (single-space joined); update the bbox — the
first update (detected by `bbox[2] == 0`) stores `(x, y, w, h)`, later
updates store `(min left, min top, max right, max bottom)`. -/
def processWord (st : DocumentLayout × LineAcc) (d : OCRWord) : DocumentLayout × LineAcc :=
  if d.text.trim = "" then st
  else
    let conf := d.conf / 100
    let st1 :=
      if (d.top - st.2.y).natAbs > 10 ∧ st.2.text ≠ "" then
        (finalizeTextLine st.1 st.2.text st.2.words st.2.bbox,
         { st.2 with text := "", words := [], y := d.top })
      else st
    let acc := st1.2
    let text := acc.text ++ (if acc.text = "" then "" else " ") ++ d.text
    let words := acc.words ++ [{ text := d.text, confidence := conf,
                                 bbox := (d.left, d.top, d.width, d.height) }]
    let bbox :=
      if acc.bbox.2.2.1 = 0 then (d.left, d.top, d.width, d.height)
      else (min acc.bbox.1 d.left, min acc.bbox.2.1 d.top,
            max acc.bbox.2.2.1 (d.left + d.width), max acc.bbox.2.2.2 (d.top + d.height))
    (st1.1, { y := d.top, text := text, words := words, bbox := bbox })

/-- The word-grouping loop of `_extract_layout` (lines 283–323): fold the
OCR words through `processWord` and finalize the trailing line when its
text is non-empty. -/
def groupLines (layout : DocumentLayout) (data : List OCRWord) : DocumentLayout :=
  let st := data.foldl processWord (layout, {})
  if st.2.text ≠ "" then finalizeTextLine st.1 st.2.text st.2.words st.2.bbox else st.1

/-- The bounding box the specification prescribes for a line: componentwise
minimum of word lefts/tops and maximum of word rights/bottoms, where a word
box `(x, y, w, h)` has right edge `x + w` and bottom edge `y + h`. -/
def specLineBBox (words : List Word) : Int × Int × Int × Int :=
  match words with
  | [] => (0, 0, 0, 0)
  | w :: ws =>
    ws.foldl (fun b v =>
      (min b.1 v.bbox.1, min b.2.1 v.bbox.2.1,
       max b.2.2.1 (v.bbox.1 + v.bbox.2.2.1), max b.2.2.2 (v.bbox.2.1 + v.bbox.2.2.2)))
      (w.bbox.1, w.bbox.2.1, w.bbox.1 + w.bbox.2.2.1, w.bbox.2.1 + w.bbox.2.2.2)

/-- `"a"` has no surrounding whitespace. -/
theorem trim_a : ("a" : String).trim = "a" := by
  have h1 : Substring.takeWhileAux "a" "a".endPos Char.isWhitespace { byteIdx := 0 }
      = { byteIdx := 0 } := by
    rw [Substring.takeWhileAux]
    decide
  have h2 : Substring.takeRightWhileAux "a" { byteIdx := 0 } Char.isWhitespace "a".endPos
      = "a".endPos := by
    rw [Substring.takeRightWhileAux]
    decide
  show (Substring.trim (String.toSubstring "a")).toString = "a"
  simp only [String.toSubstring, Substring.trim, h1, h2]
  decide

/-- `"b"` has no surrounding whitespace. -/
theorem trim_b : ("b" : String).trim = "b" := by
  have h1 : Substring.takeWhileAux "b" "b".endPos Char.isWhitespace { byteIdx := 0 }
      = { byteIdx := 0 } := by
    rw [Substring.takeWhileAux]
    decide
  have h2 : Substring.takeRightWhileAux "b" { byteIdx := 0 } Char.isWhitespace "b".endPos
      = "b".endPos := by
    rw [Substring.takeRightWhileAux]
    decide
  show (Substring.trim (String.toSubstring "b")).toString = "b"
  simp only [String.toSubstring, Substring.trim, h1, h2]
  decide

/-- C2 exhibit: the two words `"a"` at `(x=100, y=0, w=10, h=10)` and `"b"`
at `(x=0, y=0, w=5, h=5)` group into one line, whose stored bbox is
`(0, 0, 10, 10)` — the first update put width/height into the right/bottom
slots — while the componentwise min/max over exactly the line's words is
`(0, 0, 110, 10)`.  This evaluates the `_extract_layout` grouping at the
failing input and exhibits the divergence from the specified bbox. -/
theorem line_bbox_not_min_max_of_words :
    ((groupLines { page_height := 30 }
        [ { text := "a", left := 100, top := 0, width := 10, height := 10, conf := 90 },
          { text := "b", left := 0, top := 0, width := 5, height := 5, conf := 90 } ]).header.map
        TextLine.bbox)
      = [(0, 0, 10, 10)]
    ∧ ((groupLines { page_height := 30 }
        [ { text := "a", left := 100, top := 0, width := 10, height := 10, conf := 90 },
          { text := "b", left := 0, top := 0, width := 5, height := 5, conf := 90 } ]).header.map
        (fun l => specLineBBox l.words))
      = [(0, 0, 110, 10)]
    ∧ ((0, 0, 10, 10) : Int × Int × Int × Int) ≠ (0, 0, 110, 10) := by
  have hgl : groupLines { page_height := 30 }
        [ { text := "a", left := 100, top := 0, width := 10, height := 10, conf := 90 },
          { text := "b", left := 0, top := 0, width := 5, height := 5, conf := 90 } ]
      = finalizeTextLine { page_height := 30 } "a b"
          [ { text := "a", confidence := 90/100, bbox := (100, 0, 10, 10) },
            { text := "b", confidence := 90/100, bbox := (0, 0, 5, 5) } ]
          (0, 0, 10, 10) := by
    simp only [groupLines, List.foldl, processWord, trim_a, trim_b]
    simp
  rw [hgl]
  refine ⟨?_, ?_, by decide⟩
  · simp only [finalizeTextLine, mkTextLine]
    norm_num
  · simp only [finalizeTextLine, mkTextLine, specLineBBox]
    norm_num [List.foldl]

/-! ### The `process_document` pipeline (`process_document`, `_extract_layout`,
`_extract_raw_text`, `_detect_tables`) -/

/-- Result metadata attached by `process_document`. -/
structure Metadata where
  vision_available : Bool
  timestamp : String
deriving DecidableEq, Repr

/-- `DocumentIntelligence` dataclass: the assembled result. -/
structure DocumentIntelligence where
  file_path : String
  doc_type : DocumentType
  type_confidence : ℚ
  layout : DocumentLayout
  extracted_fields : List (String × ExtractedField)
  raw_text : String
  processing_time : ℚ
  metadata : Metadata
deriving DecidableEq, Repr

/-- The external collaborators of one `process_document` call.
`openImage` models `PIL.Image.open` + `pytesseract.image_to_data` inside
the `try` of `_extract_layout`: on success it yields the page width and
height (`img.size`) and the OCR word rows; `Except.error` models any raised
exception (missing or unreadable file), which the source catches after
logging.  `readImageGray` models `cv2.imread(..., IMREAD_GRAYSCALE)`,
which returns `None` (here `none`) for an unreadable file, else the image
whose `shape` is `(height, width)`.  `houghSegments` models
`cv2.HoughLinesP`, `none` when it returns `None`.  `elapsed` and
`timestamp` model `time.time()` differences and `datetime.now()`. -/
structure Env where
  visionAvailable : Bool
  openImage : Except String (Int × Int × List OCRWord)
  readImageGray : Option (Int × Int)
  houghSegments : Option (List Segment)
  elapsed : ℚ
  timestamp : String

/-- `DocumentIntelligenceEngine._extract_layout`: empty layout when vision
libraries are absent; otherwise open the image, record the page size and
group the OCR words into lines, with any exception caught (yielding the
default empty layout). -/
def extractLayout (env : Env) : DocumentLayout :=
  if env.visionAvailable = false then {}
  else
    match env.openImage with
    | Except.error _ => {}
    | Except.ok (w, h, data) => groupLines { page_width := w, page_height := h } data

/-- `DocumentIntelligenceEngine._extract_raw_text`: newline-join the text of
all lines, header first, then body, then footer. -/
def extractRawText (layout : DocumentLayout) : String :=
  String.intercalate "\n" ((layout.header ++ layout.body ++ layout.footer).map TextLine.text)

/-- `DocumentIntelligenceEngine._detect_tables`: no-op when vision is
unavailable, the grayscale read returns `None`, or the Hough transform
returns `None`; otherwise append `detectTables` of the segments to
`layout.tables` (the image `shape` is `(height, width)`, and the table bbox
is `(0, 0, shape[1], shape[0])`). -/
def detectTablesStage (env : Env) (layout : DocumentLayout) : DocumentLayout :=
  if env.visionAvailable = false then layout
  else
    match env.readImageGray with
    | none => layout
    | some (w, h) =>
      match env.houghSegments with
      | none => layout
      | some segs => { layout with tables := layout.tables ++ detectTables w h segs }

/-- `DocumentIntelligenceEngine.process_document`: extract layout, flatten
raw text, classify, extract fields, detect tables, and assemble the result
with timing and capability metadata.  Every fallible external call is
wrapped in `try/except` in the source (or checked for `None`), so the
assembly is total: every call produces a complete result value. -/
def processDocument (m : MatchOracle) (search : SearchOracle) (env : Env)
    (file_path : String) : DocumentIntelligence :=
  let layout := extractLayout env
  let raw_text := extractRawText layout
  let classified := classifyDocumentType m raw_text
  let extracted_fields := extractKeyFields search raw_text
  let layout := detectTablesStage env layout
  { file_path := file_path
    doc_type := classified.1
    type_confidence := classified.2
    layout := layout
    extracted_fields := extracted_fields
    raw_text := raw_text
    processing_time := env.elapsed
    metadata := { vision_available := env.visionAvailable, timestamp := env.timestamp } }

/-- C8: for every environment — in particular whenever the vision
capability is missing, or the input file is unreadable (image open raises
and the grayscale read yields `None`) — `process_document` still returns a
complete `DocumentIntelligence` value: the degraded stages default to an
empty layout, empty raw text and no tables, while classification and field
extraction still run (on the empty text) and the path, timing and metadata
are still filled in.  Totality of `processDocument` over all environments
models the no-exception guarantee of the source, where every fallible
external call is guarded by `try/except` or a `None` check. -/
theorem process_document_degrades_gracefully (m : MatchOracle) (search : SearchOracle)
    (env : Env) (file_path : String)
    (hdeg : env.visionAvailable = false
      ∨ ((∃ e, env.openImage = Except.error e) ∧ env.readImageGray = none)) :
    (processDocument m search env file_path).layout.header = []
    ∧ (processDocument m search env file_path).layout.body = []
    ∧ (processDocument m search env file_path).layout.footer = []
    ∧ (processDocument m search env file_path).layout.tables = []
    ∧ (processDocument m search env file_path).raw_text = ""
    ∧ (processDocument m search env file_path).doc_type = (classifyDocumentType m "").1
    ∧ (processDocument m search env file_path).type_confidence = (classifyDocumentType m "").2
    ∧ (processDocument m search env file_path).extracted_fields = extractKeyFields search ""
    ∧ (processDocument m search env file_path).file_path = file_path
    ∧ (processDocument m search env file_path).processing_time = env.elapsed
    ∧ (processDocument m search env file_path).metadata
        = { vision_available := env.visionAvailable, timestamp := env.timestamp } := by
  have hlayout : extractLayout env = {} := by
    rcases hdeg with hv | ⟨⟨e, he⟩, _⟩
    · simp [extractLayout, hv]
    · unfold extractLayout
      rw [he]
      split <;> rfl
  have htables : detectTablesStage env ({} : DocumentLayout) = {} := by
    rcases hdeg with hv | ⟨_, hr⟩
    · simp [detectTablesStage, hv]
    · unfold detectTablesStage
      rw [hr]
      split <;> rfl
  have hraw : extractRawText ({} : DocumentLayout) = "" := rfl
  simp [processDocument, hlayout, htables, hraw]

/-- Witness for C8 at a concrete degraded environment (no vision
capability): the result is complete with empty layout and raw text. -/
theorem process_document_degrades_gracefully_witness :
    (processDocument (fun _ _ => false) (fun _ _ => none)
        { visionAvailable := false, openImage := Except.error "io",
          readImageGray := none, houghSegments := none,
          elapsed := 0, timestamp := "2025-01-01T00:00:00" } "missing.png").raw_text = ""
    ∧ (processDocument (fun _ _ => false) (fun _ _ => none)
        { visionAvailable := false, openImage := Except.error "io",
          readImageGray := none, houghSegments := none,
          elapsed := 0, timestamp := "2025-01-01T00:00:00" } "missing.png").layout.tables = [] :=
  have h := process_document_degrades_gracefully (fun _ _ => false) (fun _ _ => none)
    { visionAvailable := false, openImage := Except.error "io",
      readImageGray := none, houghSegments := none,
      elapsed := 0, timestamp := "2025-01-01T00:00:00" } "missing.png" (Or.inl rfl)
  ⟨h.2.2.2.2.1, h.2.2.2.1⟩

end TestBuddy
